import Mathlib

/-!
Shallow embedding of the Chef Compadre conversation service
(`api/conversation_consolidated.js`) and proofs about the claims of the
specification.  Text is modelled as `String` (ASCII-faithful: the service's
pattern literals and identifiers are ASCII); the JavaScript regular
expressions used by the input gate are embedded as ordered literal chains
with `.*` gaps, the datastore and the generative model are oracles in an
environment record, and each externally visible effect of a turn is logged
in a trace of `Call` events.
-/

set_option maxRecDepth 8000

namespace ChefCompadre

/-! ## Character and string utilities -/

/-- Lowercasing of a single character, ASCII `A`-`Z` only, mirroring what
`String.prototype.toLowerCase` and the `/i` regex flag do on the ASCII
letters that all pattern literals of the service consist of. -/
def toLowerChar (c : Char) : Char :=
  if c = 'A' then 'a' else if c = 'B' then 'b' else if c = 'C' then 'c'
  else if c = 'D' then 'd' else if c = 'E' then 'e' else if c = 'F' then 'f'
  else if c = 'G' then 'g' else if c = 'H' then 'h' else if c = 'I' then 'i'
  else if c = 'J' then 'j' else if c = 'K' then 'k' else if c = 'L' then 'l'
  else if c = 'M' then 'm' else if c = 'N' then 'n' else if c = 'O' then 'o'
  else if c = 'P' then 'p' else if c = 'Q' then 'q' else if c = 'R' then 'r'
  else if c = 'S' then 's' else if c = 'T' then 't' else if c = 'U' then 'u'
  else if c = 'V' then 'v' else if c = 'W' then 'w' else if c = 'X' then 'x'
  else if c = 'Y' then 'y' else if c = 'Z' then 'z' else c

/-- JavaScript whitespace (the set trimmed by `String.prototype.trim` and
matched by the regex class `\s`): space, tab, line terminators, and the
common Unicode space characters. -/
def jsWs (c : Char) : Bool :=
  c == ' ' || c == '\t' || c == '\n' || c == '\r' ||
  c == '\x0b' || c == '\x0c' || c == '\u00a0' || c == '\u2028' || c == '\u2029' || c == '\ufeff'

/-- Whether `c` is a JavaScript line terminator (what the regex `.` does not match). -/
def isLineTerm (c : Char) : Bool :=
  c == '\n' || c == '\r' || c == '\u2028' || c == '\u2029'

def lowerL (s : List Char) : List Char := s.map toLowerChar

def isPrefixL : List Char → List Char → Bool
  | [], _ => true
  | _ :: _, [] => false
  | a :: as, b :: bs => a == b && isPrefixL as bs

/-- Whether `needle` occurs as a contiguous substring of `hay`
(`String.prototype.includes`). -/
def containsSubL (hay needle : List Char) : Bool :=
  match hay with
  | [] => isPrefixL needle []
  | _ :: cs => isPrefixL needle hay || containsSubL cs needle

def trimL (s : List Char) : List Char :=
  ((s.dropWhile jsWs).reverse.dropWhile jsWs).reverse

def lowerS (s : String) : String := ⟨lowerL s.data⟩

def trimS (s : String) : String := ⟨trimL s.data⟩

def isPrefixS (p s : String) : Bool := isPrefixL p.data s.data

/-- `hay.includes(needle)` on strings. -/
def containsS (hay needle : String) : Bool := containsSubL hay.data needle.data

/-! ## Embedded regular expressions of the input gate

Each safety regex of the service is an alternation of chains
`lit₁.*lit₂.*…`: a chain matches when its literals occur in order, with
only non-line-terminator characters between consecutive literals (the
JavaScript `.` does not match line terminators), anywhere in the input. -/

/-- Scan for an occurrence of `lit` whose gap to the previous literal stays
on the current line, continuing with `k` after the occurrence. -/
def scanLine (lit : List Char) (k : List Char → Bool) : List Char → Bool
  | [] => isPrefixL lit [] && k []
  | c :: cs =>
    (isPrefixL lit (c :: cs) && k ((c :: cs).drop lit.length)) ||
    (!isLineTerm c && scanLine lit k cs)

/-- Scan for an occurrence of `lit` anywhere (arbitrary characters before
it), continuing with `k` after the occurrence. -/
def searchAnywhere (lit : List Char) (k : List Char → Bool) : List Char → Bool
  | [] => isPrefixL lit [] && k []
  | c :: cs =>
    (isPrefixL lit (c :: cs) && k ((c :: cs).drop lit.length)) ||
    searchAnywhere lit k cs

/-- Match the remaining literals of a chain, each separated from the
previous one by a same-line gap. -/
def tailChain : List String → List Char → Bool
  | [], _ => true
  | l :: ls, s => scanLine l.data (tailChain ls) s

/-- Match a whole chain `lit₁.*lit₂.*…` somewhere in `s`. -/
def seqMatch : List String → List Char → Bool
  | [], _ => true
  | l :: ls, s => searchAnywhere l.data (tailChain ls) s

/-- The `HARMFUL_PATTERNS` list of the service, with each regex alternation
flattened into its chains (`/weapon|gun|knife.*attack|…/i` and so on). -/
def HARMFUL_PATTERNS : List (List String) :=
  [["weapon"], ["gun"], ["knife", "attack"], ["violence"], ["harm", "person"], ["hurt", "someone"],
   ["poison"], ["toxic"], ["dangerous", "substance"], ["harmful", "chemical"],
   ["suicide"], ["self", "harm"], ["end", "life"], ["kill", "myself"],
   ["dangerous", "activity"], ["risky", "behavior"],
   ["illegal", "drug"], ["substance", "abuse"], ["drug", "recipe"],
   ["steal"], ["theft"], ["robbery"], ["illegal", "activity"],
   ["explicit"], ["adult", "content"], ["inappropriate"],
   ["hate", "speech"], ["discrimination"], ["offensive"],
   ["unsafe", "cooking"], ["dangerous", "kitchen"], ["harmful", "food"],
   ["contaminated", "food"], ["food", "poisoning"], ["unsafe", "ingredient"]]

/-- The `COOKING_SAFETY_PATTERNS` list of the service, flattened the same way. -/
def COOKING_SAFETY_PATTERNS : List (List String) :=
  [["raw", "meat", "without", "cooking"],
   ["undercooked", "chicken"], ["raw", "eggs", "unsafe"],
   ["cross", "contamination"], ["unsafe", "storage"],
   ["expired", "food"], ["moldy", "ingredient"],
   ["allergen", "without", "warning"]]

/-- Case-insensitive test of a flattened pattern list against an input. -/
def matchesAnyPattern (pats : List (List String)) (input : String) : Bool :=
  pats.any fun p => seqMatch p (lowerL input.data)

structure ValidationResult where
  safe : Bool
  reason : Option String
  category : Option String
deriving DecidableEq, Repr

/-- The service's `validateInput`: empty input is invalid, then the harmful
patterns are checked, then the cooking-safety patterns. -/
def validateInput (input : String) : ValidationResult :=
  if input = "" then ⟨false, some "Invalid input", some "invalid"⟩
  else if matchesAnyPattern HARMFUL_PATTERNS input then
    ⟨false, some "Contains harmful content", some "harmful"⟩
  else if matchesAnyPattern COOKING_SAFETY_PATTERNS input then
    ⟨false, some "Unsafe cooking practice", some "unsafe_cooking"⟩
  else ⟨true, none, none⟩

/-! ## Canonical user identifiers -/

def isHexDigit (c : Char) : Bool :=
  ('0' ≤ c && c ≤ '9') || ('a' ≤ c && c ≤ 'f')

/-- Consume exactly `n` hexadecimal digits. -/
def takeHex : Nat → List Char → Option (List Char)
  | 0, s => some s
  | _ + 1, [] => none
  | n + 1, c :: cs => if isHexDigit c then takeHex n cs else none

def expectChar (c : Char) : List Char → Option (List Char)
  | [] => none
  | d :: ds => if d == c then some ds else none

def expectOneOf (cs : List Char) : List Char → Option (List Char)
  | [] => none
  | d :: ds => if cs.contains d then some ds else none

/-- The service's `isValidUUID`: the anchored case-insensitive regex
`[0-9a-f]{8}-[0-9a-f]{4}-[1-5][0-9a-f]{3}-[89ab][0-9a-f]{3}-[0-9a-f]{12}`. -/
def isValidUUID (uuid : String) : Bool :=
  let t := lowerL uuid.data
  (do
    let t ← takeHex 8 t
    let t ← expectChar '-' t
    let t ← takeHex 4 t
    let t ← expectChar '-' t
    let t ← expectOneOf ['1', '2', '3', '4', '5'] t
    let t ← takeHex 3 t
    let t ← expectChar '-' t
    let t ← expectOneOf ['8', '9', 'a', 'b'] t
    let t ← takeHex 3 t
    let t ← expectChar '-' t
    let t ← takeHex 12 t
    if t = [] then some () else none).isSome

/-! ## Data model -/

/-- A row of `conversation_memory`, and likewise an entry of the in-process
history map (`memory_type`, `memory_content`, `created_at`). -/
structure MemoryEntry where
  memory_type : String
  memory_content : String
  created_at : Nat
deriving DecidableEq, Repr

/-- A user-preference row as used by the prompt builder
(`preference_type`, `preference_value`). -/
structure Pref where
  preference_type : String
  preference_value : String
deriving DecidableEq, Repr

/-- An ingredient of a stored `recipe_data` payload (the structured shape
the URL-learning endpoint saves and the prompt builder reads). -/
structure Ingredient where
  amount : String
  name : String
  notes : Option String
deriving DecidableEq, Repr

/-- A step of a stored `recipe_data` payload. -/
structure RecipeStep where
  step : Nat
  instruction : String
deriving DecidableEq, Repr

/-- The fields of `recipe_data` that the prompt builder reads. -/
structure RecipeData where
  description : Option String
  servings : Option Nat
  difficulty : Option String
  ingredients : List Ingredient
  steps : List RecipeStep
deriving DecidableEq, Repr

/-- A `saved_recipes` row as returned by `getUserRecipes(userId, true)`. -/
structure SavedRecipe where
  title : String
  difficulty : String
  prep_time : Option Nat
  cook_time : Option Nat
  created_at : Nat
  recipe_data : Option RecipeData
deriving DecidableEq, Repr

/-- An item passed to `add_to_shopping_list`. -/
structure ShoppingItem where
  name : String
  quantity : Option String
  category : Option String
deriving DecidableEq, Repr

/-- The argument object of a tool call: one optional field set per tool,
mirroring the six declared parameter schemas. -/
structure FnArgs where
  items : List ShoppingItem
  title : Option String
  ingredients : List String
  steps : List String
  tags : List String
  prep_time : Option String
  cook_time : Option String
  servings : Option Nat
  preference_type : Option String
  preference_value : Option String
  confidence : Option Nat
  original_ingredient : Option String
  alternatives : List String
  step_number : Option Nat
  step_description : Option String
  query : Option String
  reason : Option String
deriving DecidableEq, Repr

/-- An argument object with no field set. -/
def emptyArgs : FnArgs :=
  ⟨[], none, [], [], [], none, none, none, none, none, none, none, [], none, none, none, none⟩

/-- A normalized tool call `{name, args}` extracted from the model response. -/
structure FunctionCall where
  name : String
  args : FnArgs
deriving DecidableEq, Repr

/-- An entry of the `actions` list of the response: either a success object
with an `action` tag (plus `query`/`reason` for reference images, a
human-readable `message`, and the echoed arguments) or an `error` object. -/
structure ActionEntry where
  action : Option String
  error : Option String
  query : Option String
  reason : Option String
  message : Option String
  payload : Option FnArgs
deriving DecidableEq, Repr

/-- What the model returned for the turn: free text plus zero or more
normalized tool calls. -/
structure ModelOut where
  reply : String
  functionCalls : List FunctionCall
deriving DecidableEq, Repr

/-- The turn's environment: configuration flags, the wall clock, the
outcome the datastore would give a write, the model's output, and the rows
the datastore would return for each per-turn read. -/
structure Env where
  supabaseConfigured : Bool
  geminiKey : Bool
  now : Nat
  dbOk : Bool
  modelOut : ModelOut
  dbPreferences : List Pref
  dbMemory : List MemoryEntry
  dbRecipes : List SavedRecipe
  dbHistory : List MemoryEntry
deriving Repr

/-- An externally visible effect of processing a turn: entering input
validation, a generative-model call (main, with its prompt, or nutrition,
with the analysed text), a datastore read, or a datastore row write. -/
inductive Call where
  | validate : Call
  | modelMain : String → Call
  | modelNutrition : String → Call
  | dbRead : String → Call
  | dbWrite : String → String → Call
deriving DecidableEq, Repr

def isModelCall : Call → Bool
  | Call.modelMain _ => true
  | Call.modelNutrition _ => true
  | _ => false

def isNutritionCall : Call → Bool
  | Call.modelNutrition _ => true
  | _ => false

def isDbWrite : Call → Bool
  | Call.dbWrite _ _ => true
  | _ => false

/-! ## User data functions

Each read skips the datastore when the client is not configured or the
user id is not a canonical UUID; each write helper checks only the client
(`saveUserPreference`, `addToShoppingList` and `saveRecipe` have no UUID
check in the source). -/

/-- The service's `getUserPreferences`. -/
def getUserPreferences (env : Env) (userId : String) : List Pref × List Call :=
  if !env.supabaseConfigured then ([], [])
  else if !isValidUUID userId then ([], [])
  else (env.dbPreferences, [Call.dbRead "user_preferences"])

/-- The service's `getUserMemory`. -/
def getUserMemory (env : Env) (userId : String) : List MemoryEntry × List Call :=
  if !env.supabaseConfigured then ([], [])
  else if !isValidUUID userId then ([], [])
  else (env.dbMemory, [Call.dbRead "conversation_memory"])

/-- The service's `getUserRecipes` with `includeFullData = true`
(rows ordered by recency, at most 10). -/
def getUserRecipes (env : Env) (userId : String) : List SavedRecipe × List Call :=
  if !env.supabaseConfigured then ([], [])
  else if !isValidUUID userId then ([], [])
  else (env.dbRecipes.take 10, [Call.dbRead "saved_recipes"])

/-- The service's `saveUserPreference`: upserts whenever the client is
configured, with no check of the user id format; returns whether the write
succeeded. -/
def saveUserPreference (env : Env) (userId _prefType _prefValue : String) (_confidence : Nat) :
    Bool × List Call :=
  if !env.supabaseConfigured then (false, [])
  else (env.dbOk, [Call.dbWrite "user_preferences" userId])

/-- The service's `addToShoppingList`: bulk insert whenever the client is
configured, with no check of the user id format. -/
def addToShoppingList (env : Env) (userId : String) (_items : List ShoppingItem) :
    Bool × List Call :=
  if !env.supabaseConfigured then (false, [])
  else (env.dbOk, [Call.dbWrite "shopping_lists" userId])

/-- The service's `saveRecipe`: insert whenever the client is configured,
with no check of the user id format. -/
def saveRecipe (env : Env) (userId : String) (_recipeData : FnArgs) : Bool × List Call :=
  if !env.supabaseConfigured then (false, [])
  else (env.dbOk, [Call.dbWrite "saved_recipes" userId])

/-! ## Context assembly -/

/-- Rendering of a possibly null numeric column in a template literal. -/
def renderOptNat : Option Nat → String
  | none => "null"
  | some n => toString n

/-- Rendering of `value || 'N/A'` for a string field (empty is falsy). -/
def orNA : Option String → String
  | none => "N/A"
  | some s => if s = "" then "N/A" else s

/-- Rendering of `value || 'N/A'` for a numeric field (zero is falsy). -/
def orNAnat : Option Nat → String
  | none => "N/A"
  | some 0 => "N/A"
  | some n => toString n

/-- One line of the saved-recipes list in the prompt. -/
def recipeLine (r : SavedRecipe) : String :=
  "- " ++ r.title ++ " (" ++ r.difficulty ++ ", " ++ renderOptNat r.prep_time ++
  "min prep, " ++ renderOptNat r.cook_time ++ "min cook)"

/-- One ingredient line of the most-recent-recipe details (`i` is the
zero-based index; the label printed is `i + 1`). -/
def notesStr (ing : Ingredient) : String :=
  match ing.notes with
  | some nt => if nt = "" then "" else " (" ++ nt ++ ")"
  | none => ""

def ingLine (i : Nat) (ing : Ingredient) : String :=
  ("\n" ++ toString (i + 1) ++ ". ") ++ (ing.amount ++ " " ++ ing.name) ++ notesStr ing

/-- The ingredient lines appended in order by the `forEach` of the source. -/
def ingLines : Nat → List Ingredient → String
  | _, [] => ""
  | i, ing :: rest => ingLine i ing ++ ingLines (i + 1) rest

/-- One step line of the most-recent-recipe details. -/
def stepLine (s : RecipeStep) : String :=
  "\n" ++ (toString s.step ++ ". " ++ s.instruction)

/-- The step lines appended in order by the `forEach` of the source. -/
def stepLines : List RecipeStep → String
  | [] => ""
  | s :: rest => stepLine s ++ stepLines rest

/-- The detail block built from `recipe_data` of the most recent recipe:
description, servings, difficulty, the first 10 ingredients and the first
5 steps (with a count of the remaining steps). -/
def recipeDetailsHeader (rd : RecipeData) : String :=
  "\n\nRECIPE DETAILS:" ++
  "\n- Description: " ++ orNA rd.description ++
  "\n- Servings: " ++ orNAnat rd.servings ++
  "\n- Difficulty: " ++ orNA rd.difficulty

/-- The ingredient section: header plus the first 10 ingredient lines,
present only when the recipe has ingredients. -/
def ingredientsBlock (rd : RecipeData) : String :=
  if rd.ingredients.length > 0 then
    ("\n\nINGREDIENTS (" ++ toString rd.ingredients.length ++ " items):") ++
    ingLines 0 (rd.ingredients.take 10)
  else ""

/-- The step section: header plus the first 5 step lines and the count of
the remaining steps, present only when the recipe has steps. -/
def stepsBlock (rd : RecipeData) : String :=
  if rd.steps.length > 0 then
    ("\n\nSTEPS (" ++ toString rd.steps.length ++ " total):") ++
    stepLines (rd.steps.take 5) ++
    (if rd.steps.length > 5 then
      "\n... and " ++ toString (rd.steps.length - 5) ++ " more steps"
    else "")
  else ""

def recipeDetails (rd : RecipeData) : String :=
  recipeDetailsHeader rd ++ ingredientsBlock rd ++ stepsBlock rd ++
  "\n\n✅ This recipe is ready for step-by-step guidance!"

/-- The five-minute recency window in milliseconds. -/
def recencyWindowMs : Nat := 5 * 60 * 1000

/-- The service's `recipeGuidanceContext` block: empty without saved
recipes; otherwise the titles list, and when the most recent recipe is
younger than five minutes also its headline and, if `recipe_data` is
present, the full detail block. -/
def recipeGuidanceContext (recipes : List SavedRecipe) (now : Nat) : String :=
  match recipes with
  | [] => ""
  | r :: _ =>
    let base := "\n\nSAVED RECIPES AVAILABLE FOR GUIDANCE:\n" ++
      String.intercalate "\n" (recipes.map recipeLine)
    if (now : Int) - (r.created_at : Int) < (recencyWindowMs : Int) then
      base ++ "\n\n⭐ MOST RECENTLY LEARNED RECIPE: \"" ++ r.title ++ "\"" ++
      (match r.recipe_data with
       | some rd => recipeDetails rd
       | none => "")
    else base

/-- One line of the recent-conversation block. -/
def conversationLine (h : MemoryEntry) : String :=
  if h.memory_type = "user_message" then "User: " ++ h.memory_content
  else if h.memory_type = "assistant_response" then "Assistant: " ++ h.memory_content
  else h.memory_type ++ ": " ++ h.memory_content

/-- The last six history entries joined into the recent-conversation block. -/
def conversationContext (history : List MemoryEntry) : String :=
  String.intercalate "\n" ((history.drop (history.length - 6)).map conversationLine)

/-- The literal text of the prompt before the user context. -/
def promptHead : String :=
  "You are Chef Compadre, a helpful cooking assistant with access to user data and tools.\n\n🚨🚨🚨 CRITICAL MANDATORY INSTRUCTION: \nIf the user says ANYTHING about wanting to SEE, VIEW, SHOW, or LOOK AT something (including \"show me\", \"can you show\", \"how does it look\", \"how it looks like\", \"what does it look like\"), you MUST IMMEDIATELY call the show_reference_images function. \n- Extract the subject from their message or recent conversation (if they use \"it\", \"that\", \"this\", figure out what they mean from context)\n- DO NOT respond with text description - ALWAYS use the tool first to show actual images!\n- This is NOT optional - if they want to see something visual, you MUST call the tool.\n\nUSER CONTEXT:\n"

/-- The literal instruction text of the prompt after the current message. -/
def promptTail : String :=
  "\n\nINSTRUCTIONS:
- **CRITICAL**: Be conversational and maintain context throughout the ENTIRE conversation
- Remember EVERYTHING from the recent conversation history above
- **LEARNED RECIPES**: If a recipe was just learned (see ⭐ MOST RECENTLY LEARNED section):
  * You have FULL access to all ingredients, steps, times, difficulty
  * This recipe is NOW IN YOUR MEMORY - treat it as if you've always known it
  * When user asks about \"the recipe\" or \"that recipe\", they mean THIS one
  * Answer ALL questions directly from the recipe details above
  * Don't ask \"which recipe?\" - you already know!
  * Reference specific ingredients and amounts from the data provided
  * If they say \"guide me\" or \"let's cook this\", use the recipe data above

- **SAVED RECIPES** (listed above):
  * These are recipes the user has previously learned/saved
  * They can ask you about any of them
  * Recently learned recipes (⭐) have full details available
  * For older recipes, you may only have title/basic info

- **Use tools SMARTLY**:
  * show_reference_images: **MANDATORY - ALWAYS CALL THIS TOOL** when user says ANY of these:
    - \"show me [X]\" / \"show [X]\" / \"show a picture\" / \"can you show me\"
    - \"picture of [X]\" / \"photo of [X]\" / \"image of [X]\"
    - \"what does [X] look like\" / \"how does [X] look\" / \"how it looks like\" / \"can you show me how it looks\"
    - \"I want to see [X]\" / \"can I see [X]\" / \"let me see [X]\" / \"see how it looks\"
    - \"reference for [X]\" / \"reference image\" / \"visual reference\"
    - If user uses pronouns (\"it\", \"that\", \"this\"), extract what they're referring to from conversation context
    - DO NOT just describe visually - ALWAYS CALL THE TOOL so they can see actual images!
    - Example: User says \"can you show me how it looks like\" → Extract \"it\" from context (e.g., \"fried rice\") → Call tool with query=\"fried rice\"
  * add_to_shopping_list: When user wants to save ingredients for later
  * save_recipe: ONLY for new recipes (learned recipes are already saved)
  * update_preferences: When user mentions dietary changes
  * suggest_substitutions: When user asks for alternatives
  * guide_recipe_step: For structured step-by-step cooking

- **DON'T use tools for**:
  * Answering questions (unless it's asking to SEE something - then use show_reference_images)
  * General conversation
  * Explaining things (unless they want to SEE - then use show_reference_images)
  * Just talk naturally!

- **Be SMART**:
  * Continue previous topics naturally
  * Don't repeat information
  * Reference earlier conversation
  * Act like you remember everything
  * Be concise and helpful
  * Don't suggest nutrition analysis - it happens automatically

Respond naturally as if you're having a continuous conversation with full memory and access to all learned recipes."

/-- The assembled per-turn prompt (`contextPrompt` of the source): the
instruction head, preference and memory lines, the last six history
entries, the saved-recipe guidance block, the current message and the
instruction tail, concatenated in the fixed source order. -/
def buildContextPrompt (prefs : List Pref) (memory : List MemoryEntry)
    (history : List MemoryEntry) (recipes : List SavedRecipe) (now : Nat)
    (message : String) : String :=
  promptHead ++
  String.intercalate "\n" (prefs.map fun p =>
    "- " ++ p.preference_type ++ ": " ++ p.preference_value) ++
  "\n" ++
  String.intercalate "\n" (memory.map fun m => "- " ++ m.memory_content) ++
  "\n\nRECENT CONVERSATION:\n" ++
  conversationContext history ++
  "\n" ++
  recipeGuidanceContext recipes now ++
  "\n\nCURRENT MESSAGE: " ++ message ++
  promptTail

/-! ## Light jailbreak protection -/

def metaphorPhrases : List String :=
  ["in terms of", "represents", "symbolizes", "as if", "like a"]

def nonFoodTopics : List String :=
  ["politics", "political", "economy", "economic", "recession", "depression",
   "government", "war", "conflict", "religion", "religious",
   "election", "president", "congress", "senate"]

/-- The scripted redirect reply of `checkCookingIntent`. -/
def metaphorRedirectMessage : String :=
  "I appreciate the creative metaphor! However, I'm specifically designed to help with actual cooking and recipes. I'd love to help you make a real biryani, pasta, or any other dish though! What would you like to cook today? 🍳"

/-- The service's `checkCookingIntent`: unsafe exactly when the lowercased
message contains both a figurative-language cue and a non-food topic. -/
def checkCookingIntent (message : String) : Bool :=
  let lowerMessage := lowerS message
  let hasMetaphor := metaphorPhrases.any fun p => containsS lowerMessage p
  let hasNonFoodTopic := nonFoodTopics.any fun t => containsS lowerMessage t
  !(hasMetaphor && hasNonFoodTopic)

/-! ## Client-side reference-image fallback heuristic -/

/-- The fixed trigger-phrase list of the fallback heuristic, in source order. -/
def seePhrases : List String :=
  ["show me", "show ", "picture of", "photo of", "image of",
   "what does", "how does", "how it looks", "how it looks like", "how it look",
   "can i see", "let me see", "see how"]

/-- The suffix after the first occurrence of `sep`, when `sep` occurs. -/
def afterFirstOcc (sep : List Char) : List Char → Option (List Char)
  | [] => if isPrefixL sep [] then some [] else none
  | c :: cs =>
    if isPrefixL sep (c :: cs) then some ((c :: cs).drop sep.length)
    else afterFirstOcc sep cs

/-- Fueled scan to the part after the last non-overlapping occurrence. -/
def afterLastOccAux : Nat → List Char → List Char → List Char
  | 0, _, s => s
  | fuel + 1, sep, s =>
    match afterFirstOcc sep s with
    | none => s
    | some rest => afterLastOccAux fuel sep rest

/-- `s.split(sep).pop()`: the part after the last occurrence of a
non-empty `sep` under the left-to-right non-overlapping scan of
`String.prototype.split` (all of `s` when `sep` does not occur). -/
def afterLastOccS (sep s : String) : String :=
  ⟨afterLastOccAux (s.data.length + 1) sep.data s.data⟩

/-- The trigger-phrase stripping loop: for each phrase, in order, if the
query still contains it, keep only what follows its last occurrence,
trimmed. -/
def stripPhrases (q : String) : String :=
  seePhrases.foldl
    (fun q p => if containsS q p then trimS (afterLastOccS p q) else q) q

def stripOptionalL (p : String) (s : List Char) : List Char :=
  if isPrefixL p.data s then s.drop p.data.length else s

/-- The tail of the anchored regex `looks?( like)?\s*` after `look`. -/
def finishHowLooks (r : List Char) : List Char :=
  ((stripOptionalL " like" (stripOptionalL "s" r)).dropWhile jsWs)

/-- Removal of the anchored match of
`/^how (it|this|that) looks?( like)?\s*/` when the query starts with it. -/
def stripHowLooks (q : String) : String :=
  let d := q.data
  if isPrefixL "how it look".data d then ⟨finishHowLooks (d.drop 11)⟩
  else if isPrefixL "how this look".data d then ⟨finishHowLooks (d.drop 13)⟩
  else if isPrefixL "how that look".data d then ⟨finishHowLooks (d.drop 13)⟩
  else q

/-- The tail of the anchored regex `look( like)?\s*` after `look`. -/
def finishDoesLook (r : List Char) : List Char :=
  ((stripOptionalL " like" r).dropWhile jsWs)

/-- Removal of the anchored match of
`/^(does|do) (it|this|that) look( like)?\s*/` when the query starts with it. -/
def stripDoesLook (q : String) : String :=
  let d := q.data
  if isPrefixL "does it look".data d then ⟨finishDoesLook (d.drop 12)⟩
  else if isPrefixL "does this look".data d then ⟨finishDoesLook (d.drop 14)⟩
  else if isPrefixL "does that look".data d then ⟨finishDoesLook (d.drop 14)⟩
  else if isPrefixL "do it look".data d then ⟨finishDoesLook (d.drop 10)⟩
  else if isPrefixL "do this look".data d then ⟨finishDoesLook (d.drop 12)⟩
  else if isPrefixL "do that look".data d then ⟨finishDoesLook (d.drop 12)⟩
  else q

/-- The first segment of `s.split(/[\n,.]/)`. -/
def firstSegment (s : String) : String :=
  ⟨s.data.takeWhile fun c => !(c == '\n' || c == ',' || c == '.')⟩

/-- The search query of a synthesized reference-image action: the
lowercased message with trigger phrases and generic tails stripped;
when that is empty, the first segment of the most recent memory fact, and
as final fallback the literal `biryani`. -/
def computeFallbackQuery (lowerMsg : String) (memory : List MemoryEntry) : String :=
  let q := stripPhrases lowerMsg
  let q := trimS (stripHowLooks q)
  let q := trimS (stripDoesLook q)
  if q = "" then
    let lastMem := (memory.getLast?.map MemoryEntry.memory_content).getD ""
    let q2 := trimS (firstSegment lastMem)
    if q2 = "" then "biryani" else q2
  else q

/-- The synthesized reference-image action entry. -/
def refImagesFallbackAction (query : String) : ActionEntry :=
  { action := some "reference_images"
    error := none
    query := some query
    reason := some "Heuristic fallback: user explicitly asked to SEE something"
    message := none
    payload := none }

/-- The fallback branch of the source: when no action was produced and the
lowercased message contains a trigger phrase, append one synthesized
reference-image action. -/
def applyFallback (message : String) (memory : List MemoryEntry)
    (actions : List ActionEntry) : List ActionEntry :=
  if actions.length = 0 then
    let lowerMsg := lowerS message
    if seePhrases.any (fun p => containsS lowerMsg p) then
      actions ++ [refImagesFallbackAction (computeFallbackQuery lowerMsg memory)]
    else actions
  else actions

/-! ## Nutrition heuristic -/

/-- Whether the user message explicitly asks for nutrition information. -/
def explicitNutritionAsk (message : String) : Bool :=
  containsS (lowerS message) "nutrition" ||
  containsS (lowerS message) "calories" ||
  containsS (lowerS message) "how healthy" ||
  containsS (lowerS message) "nutritional"

def cookingKeywords : List String :=
  ["step", "cook", "fry", "boil", "bake", "sauté", "grill", "roast",
   "ingredient", "recipe", "prepare", "heat", "simmer", "mix", "stir",
   "first", "then", "next", "add", "pour", "chop", "dice", "slice"]

def recipeNames : List String :=
  ["fried rice", "pasta", "curry", "soup", "stew", "salad", "sandwich",
   "stir fry", "roast", "grilled", "baked", "pizza", "burger", "taco"]

/-- Whether one of the last four history entries marks a recently
discussed recipe (the fixed keywords of the source). -/
def hasRecentRecipe (history : List MemoryEntry) : Bool :=
  (history.drop (history.length - 4)).any fun h =>
    h.memory_content ≠ "" &&
    (containsS (lowerS h.memory_content) "fried rice" ||
     containsS (lowerS h.memory_content) "nutrition" ||
     containsS (lowerS h.memory_content) "📖")

/-- The service's `isNewRecipeSuggestion` classifier. -/
def isNewRecipeSuggestion (text : String) (history : List MemoryEntry) : Bool :=
  if text = "" then false
  else
    let lowerText := lowerS text
    if containsS lowerText "?" || isPrefixS "what " lowerText ||
        isPrefixS "how " lowerText then false
    else if hasRecentRecipe history then false
    else
      let hasCookingContent := cookingKeywords.any fun w => containsS lowerText w
      let isLongEnough := text.data.length > 100
      let mentionsRecipe := recipeNames.any fun r => containsS lowerText r
      (hasCookingContent && isLongEnough) || mentionsRecipe

/-! ## Action executor -/

/-- Rendering of a possibly undefined string field in a template literal. -/
def optStr (o : Option String) : String := o.getD "undefined"

/-- Rendering of a possibly undefined numeric field in a template literal. -/
def optNatStr : Option Nat → String
  | none => "undefined"
  | some n => toString n

def executeAddToShoppingList (env : Env) (userId : String)
    (items : List ShoppingItem) : ActionEntry × List Call :=
  let success := (addToShoppingList env userId items).1
  let calls := (addToShoppingList env userId items).2
  if success then
    ({ action := some "shopping_list_added", error := none, query := none,
       reason := none,
       message := some ("Added " ++ toString items.length ++ " items to your shopping list")
       payload := some { emptyArgs with items := items } }, calls)
  else
    ({ action := none, error := some "Failed to add to shopping list", query := none,
       reason := none, message := none, payload := none }, calls)

def executeSaveRecipe (env : Env) (userId : String) (recipeData : FnArgs) :
    ActionEntry × List Call :=
  let success := (saveRecipe env userId recipeData).1
  let calls := (saveRecipe env userId recipeData).2
  if success then
    ({ action := some "recipe_saved", error := none, query := none, reason := none,
       message := some ("Saved recipe: " ++ optStr recipeData.title)
       payload := some recipeData }, calls)
  else
    ({ action := none, error := some "Failed to save recipe", query := none,
       reason := none, message := none, payload := none }, calls)

/-- The JavaScript default `preferenceData.confidence || 3` (zero is falsy). -/
def jsConfidence : Option Nat → Nat
  | some 0 => 3
  | some n => n
  | none => 3

/-- The preference handler ignores the boolean returned by
`saveUserPreference` and always reports `preference_updated`. -/
def executeUpdatePreferences (env : Env) (userId : String) (preferenceData : FnArgs) :
    ActionEntry × List Call :=
  let calls := (saveUserPreference env userId
    (optStr preferenceData.preference_type) (optStr preferenceData.preference_value)
    (jsConfidence preferenceData.confidence)).2
  ({ action := some "preference_updated", error := none, query := none, reason := none,
     message := some ("Updated your " ++ optStr preferenceData.preference_type ++ " preference")
     payload := some preferenceData }, calls)

def executeSuggestSubstitutions (_env : Env) (_userId : String)
    (substitutionData : FnArgs) : ActionEntry × List Call :=
  ({ action := some "substitution_suggested", error := none, query := none, reason := none,
     message := some ("Suggested alternatives for " ++ optStr substitutionData.original_ingredient)
     payload := some substitutionData }, [])

def executeGuideRecipeStep (_env : Env) (_userId : String) (stepData : FnArgs) :
    ActionEntry × List Call :=
  ({ action := some "recipe_step_guided", error := none, query := none, reason := none,
     message := some ("Step " ++ optNatStr stepData.step_number ++ ": " ++
       optStr stepData.step_description)
     payload := some stepData }, [])

def executeShowReferenceImages (_env : Env) (_userId : String) (imageData : FnArgs) :
    ActionEntry × List Call :=
  let q := match imageData.query with
    | some s => if s = "" then "cooking" else s
    | none => "cooking"
  let r := match imageData.reason with
    | some s => if s = "" then "User requested visual reference" else s
    | none => "User requested visual reference"
  ({ action := some "reference_images", error := none, query := some q,
     reason := some r,
     message := some ("Opening reference images for: " ++ q)
     payload := some imageData }, [])

/-- The error entry of the dispatcher's `default` branch. -/
def unknownFunctionEntry : ActionEntry :=
  { action := none, error := some "Unknown function", query := none,
    reason := none, message := none, payload := none }

/-- The names of the six declared tools. -/
def toolNames : List String :=
  ["add_to_shopping_list", "save_recipe", "update_preferences",
   "suggest_substitutions", "guide_recipe_step", "show_reference_images"]

/-- The service's `executeFunctionCall` dispatcher. -/
def executeFunctionCall (env : Env) (userId : String) (fc : FunctionCall) :
    ActionEntry × List Call :=
  if fc.name = "add_to_shopping_list" then executeAddToShoppingList env userId fc.args.items
  else if fc.name = "save_recipe" then executeSaveRecipe env userId fc.args
  else if fc.name = "update_preferences" then executeUpdatePreferences env userId fc.args
  else if fc.name = "suggest_substitutions" then executeSuggestSubstitutions env userId fc.args
  else if fc.name = "guide_recipe_step" then executeGuideRecipeStep env userId fc.args
  else if fc.name = "show_reference_images" then executeShowReferenceImages env userId fc.args
  else (unknownFunctionEntry, [])

/-! ## The agent pipeline -/

/-- What `processWithAgent` returns to the handler. -/
structure AgentResult where
  reply : String
  actions : List ActionEntry
  nutritionPresent : Bool
deriving DecidableEq, Repr

/-- The service's `processWithAgent` pipeline on the non-exception path:
intent gate, three datastore reads, prompt assembly, the model call, the
action-execution loop, the reference-image fallback and the nutrition
decision; the second component is the trace of external effects in order. -/
def processWithAgent (env : Env) (userId message : String)
    (history : List MemoryEntry) : AgentResult × List Call :=
  if !checkCookingIntent message then
    ({ reply := metaphorRedirectMessage, actions := [], nutritionPresent := false }, [])
  else
    let preferences := (getUserPreferences env userId).1
    let memory := (getUserMemory env userId).1
    let savedRecipes := (getUserRecipes env userId).1
    let prompt := buildContextPrompt preferences memory history savedRecipes env.now message
    let reply := env.modelOut.reply
    let executed := env.modelOut.functionCalls.map (executeFunctionCall env userId)
    let actions := executed.map Prod.fst
    let c4 := (executed.map Prod.snd).flatten
    let actions := applyFallback message memory actions
    let nutritionWanted := explicitNutritionAsk message || isNewRecipeSuggestion reply history
    let c5 := if nutritionWanted then [Call.modelNutrition reply] else []
    ({ reply := reply, actions := actions, nutritionPresent := nutritionWanted },
     (getUserPreferences env userId).2 ++ (getUserMemory env userId).2 ++
     (getUserRecipes env userId).2 ++ [Call.modelMain prompt] ++ c4 ++ c5)

/-! ## History writer and the in-process map -/

/-- The process-wide in-memory history map (`conversationHistory`),
modelled as an association list from user id to entry list. -/
abbrev MemMap := List (String × List MemoryEntry)

def mmGet : MemMap → String → List MemoryEntry
  | [], _ => []
  | (k, v) :: rest, uid => if k = uid then v else mmGet rest uid

def mmSet : MemMap → String → List MemoryEntry → MemMap
  | [], uid, v => [(uid, v)]
  | (k, w) :: rest, uid, v =>
    if k = uid then (k, v) :: rest else (k, w) :: mmSet rest uid v

/-- The service's `getConversationHistory`: the stored rows (at most 20,
by the query's limit) for a configured client and canonical id, otherwise
the in-process map. -/
def getConversationHistory (env : Env) (mem : MemMap) (userId : String) :
    List MemoryEntry × List Call :=
  if !env.supabaseConfigured then (mmGet mem userId, [])
  else if !isValidUUID userId then (mmGet mem userId, [])
  else (env.dbHistory.take 20, [Call.dbRead "conversation_memory"])

/-- The service's `addToHistory`: always append the two turn entries to the
in-process map and trim it to the most recent 20; insert the two rows into
the datastore only for a configured client and a canonical id (the insert
of two rows is logged as two row writes). -/
def addToHistory (env : Env) (mem : MemMap) (userId userMessage botResponse : String) :
    MemMap × List Call :=
  let appended := mmGet mem userId ++
    [⟨"user_message", userMessage, env.now⟩, ⟨"assistant_response", botResponse, env.now⟩]
  let trimmed :=
    if appended.length > 20 then appended.drop (appended.length - 20) else appended
  (mmSet mem userId trimmed,
   if !env.supabaseConfigured then []
   else if !isValidUUID userId then []
   else [Call.dbWrite "conversation_memory" userId,
         Call.dbWrite "conversation_memory" userId])

/-- Iterated turns of the history writer, from an empty process and an
empty trace: each element is `(userId, userMessage, botResponse)`. -/
def runHistory (env : Env) (turns : List (String × String × String)) :
    MemMap × List Call :=
  turns.foldl
    (fun acc t =>
      let r := addToHistory env acc.1 t.1 t.2.1 t.2.2
      (r.1, acc.2 ++ r.2))
    ([], [])

/-! ## Main handler -/

/-- The JSON body and status of a response; an `Option` field is absent
from the body when `none`, and `nutrition` records whether a nutrition
object was attached. -/
structure JsonResp where
  status : Nat
  reply : Option String
  error : Option String
  message : Option String
  reason : Option String
  actions : Option (List ActionEntry)
  nutrition : Bool
deriving DecidableEq, Repr

/-- A response with only a status. -/
def baseResp (status : Nat) : JsonResp :=
  ⟨status, none, none, none, none, none, false⟩

/-- An inbound request after JSON parsing and defaulting
(`user_id = 'web'`, `text = ''` when absent). -/
structure Req where
  method : String
  user_id : String
  text : String
deriving DecidableEq, Repr

/-- The observable outcome of one request: the response, the trace of
external effects in order, and the in-process map afterwards. -/
structure TurnOut where
  resp : JsonResp
  calls : List Call
  mem : MemMap
deriving DecidableEq, Repr

/-- The refusal message of the safety gate's 400 response. -/
def contentBlockedMessage : String :=
  "I can only help with cooking and food-related questions. Please ask me about recipes, ingredients, or cooking techniques!"

/-- The exported request handler on the non-exception path: method and key
checks, the empty-text early return, the safety gate, history read, agent
processing and the history write. -/
def handler (env : Env) (mem : MemMap) (req : Req) : TurnOut :=
  if req.method ≠ "POST" then
    ⟨{ baseResp 405 with error := some "Method not allowed" }, [], mem⟩
  else if !env.geminiKey then
    ⟨{ baseResp 500 with error := some "Gemini API key not configured" }, [], mem⟩
  else if trimS req.text = "" then
    ⟨{ baseResp 200 with reply := some "" }, [], mem⟩
  else
    let validation := validateInput req.text
    if !validation.safe then
      ⟨{ baseResp 400 with
           error := some "Content blocked"
           message := some contentBlockedMessage
           reason := validation.reason },
       [Call.validate], mem⟩
    else
      let history := (getConversationHistory env mem req.user_id).1
      let result := (processWithAgent env req.user_id req.text history).1
      ⟨{ baseResp 200 with
           reply := some result.reply
           actions := some result.actions
           nutrition := result.nutritionPresent },
       Call.validate ::
         ((getConversationHistory env mem req.user_id).2 ++
          (processWithAgent env req.user_id req.text history).2 ++
          (addToHistory env mem req.user_id req.text result.reply).2),
       (addToHistory env mem req.user_id req.text result.reply).1⟩

/-! ## Supporting lemmas on strings and substrings -/

theorem isPrefixL_iff (p s : List Char) : isPrefixL p s = true ↔ p <+: s := by
  induction p generalizing s with
  | nil => simp [isPrefixL]
  | cons a as ih =>
    cases s with
    | nil => simp [isPrefixL]
    | cons b bs => simp [isPrefixL, List.cons_prefix_cons, ih]

theorem containsSubL_iff (s x : List Char) : containsSubL s x = true ↔ x <:+: s := by
  induction s with
  | nil =>
    simp [containsSubL, isPrefixL_iff]
  | cons c cs ih =>
    rw [containsSubL, Bool.or_eq_true, isPrefixL_iff, ih, List.infix_cons_iff]

theorem containsS_of_infix {s x : String} (h : x.data <:+: s.data) :
    containsS s x = true :=
  (containsSubL_iff _ _).mpr h

theorem containsS_self (x : String) : containsS x x = true :=
  containsS_of_infix (List.infix_refl _)

theorem containsS_append_left {a : String} (b : String) {x : String}
    (h : containsS a x = true) : containsS (a ++ b) x = true := by
  apply containsS_of_infix
  rw [String.data_append]
  obtain ⟨u, v, hv⟩ := (containsSubL_iff _ _).mp h
  exact ⟨u, v ++ b.data, by rw [← hv]; simp⟩

theorem containsS_append_right (a : String) {b x : String}
    (h : containsS b x = true) : containsS (a ++ b) x = true := by
  apply containsS_of_infix
  rw [String.data_append]
  obtain ⟨u, v, hv⟩ := (containsSubL_iff _ _).mp h
  exact ⟨a.data ++ u, v, by rw [← hv]; simp⟩

/-! ## Supporting lemmas for the safety gate -/

theorem toLowerChar_eq_self_of_ws {c : Char} (h : jsWs c = true) : toLowerChar c = c := by
  have hne : ∀ u : Char, jsWs u = false → ¬(c = u) := fun u hu he => by
    rw [he, hu] at h; cases h
  unfold toLowerChar
  rw [if_neg (hne 'A' (by decide)), if_neg (hne 'B' (by decide)),
    if_neg (hne 'C' (by decide)), if_neg (hne 'D' (by decide)),
    if_neg (hne 'E' (by decide)), if_neg (hne 'F' (by decide)),
    if_neg (hne 'G' (by decide)), if_neg (hne 'H' (by decide)),
    if_neg (hne 'I' (by decide)), if_neg (hne 'J' (by decide)),
    if_neg (hne 'K' (by decide)), if_neg (hne 'L' (by decide)),
    if_neg (hne 'M' (by decide)), if_neg (hne 'N' (by decide)),
    if_neg (hne 'O' (by decide)), if_neg (hne 'P' (by decide)),
    if_neg (hne 'Q' (by decide)), if_neg (hne 'R' (by decide)),
    if_neg (hne 'S' (by decide)), if_neg (hne 'T' (by decide)),
    if_neg (hne 'U' (by decide)), if_neg (hne 'V' (by decide)),
    if_neg (hne 'W' (by decide)), if_neg (hne 'X' (by decide)),
    if_neg (hne 'Y' (by decide)), if_neg (hne 'Z' (by decide))]

theorem searchAnywhere_head_mem {a : Char} {lit : List Char} {k : List Char → Bool} :
    ∀ {t : List Char}, searchAnywhere (a :: lit) k t = true → a ∈ t := by
  intro t
  induction t with
  | nil => simp [searchAnywhere, isPrefixL]
  | cons c cs ih =>
    intro h
    rw [searchAnywhere, Bool.or_eq_true, Bool.and_eq_true] at h
    rcases h with ⟨h1, _⟩ | h2
    · rw [isPrefixL, Bool.and_eq_true, beq_iff_eq] at h1
      exact h1.1 ▸ List.mem_cons_self _ _
    · exact List.mem_cons_of_mem _ (ih h2)

/-- Whether the head literal of a chain starts with a non-whitespace
character (true for every chain of the two pattern lists). -/
def patHeadNonWs : List String → Bool
  | [] => false
  | l :: _ =>
    match l.data with
    | [] => false
    | c :: _ => !jsWs c

theorem anyPattern_exists_nonWs {pats : List (List String)}
    (hgood : pats.all patHeadNonWs = true) {input : String}
    (hm : matchesAnyPattern pats input = true) :
    ∃ c ∈ input.data, jsWs c = false := by
  rw [matchesAnyPattern, List.any_eq_true] at hm
  obtain ⟨p, hp, hmatch⟩ := hm
  have hpg : patHeadNonWs p = true := List.all_eq_true.mp hgood p hp
  match p with
  | [] => simp [patHeadNonWs] at hpg
  | l :: ls =>
    match hl : l.data with
    | [] => rw [patHeadNonWs, hl] at hpg; exact absurd hpg (by simp)
    | a :: rest =>
      rw [patHeadNonWs, hl, Bool.not_eq_true'] at hpg
      rw [seqMatch, hl] at hmatch
      have hmem : a ∈ lowerL input.data := searchAnywhere_head_mem hmatch
      rw [lowerL, List.mem_map] at hmem
      obtain ⟨c, hc, hlow⟩ := hmem
      refine ⟨c, hc, ?_⟩
      by_cases hc2 : jsWs c = true
      · exfalso
        rw [toLowerChar_eq_self_of_ws hc2] at hlow
        rw [← hlow, hc2] at hpg
        cases hpg
      · exact Bool.eq_false_iff.mpr hc2

theorem trimL_eq_nil_all_ws {s : List Char} (h : trimL s = []) :
    ∀ c ∈ s, jsWs c = true := by
  intro c hc
  rw [trimL, List.reverse_eq_nil_iff] at h
  have h2 := List.dropWhile_eq_nil_iff.mp h
  have hs := List.takeWhile_append_dropWhile (p := jsWs) (l := s)
  rw [← hs] at hc
  rcases List.mem_append.mp hc with h3 | h3
  · exact List.mem_takeWhile_imp h3
  · exact h2 c (List.mem_reverse.mpr h3)

theorem trimS_ne_empty_of_exists_nonWs {s : String}
    (h : ∃ c ∈ s.data, jsWs c = false) : trimS s ≠ "" := by
  intro he
  obtain ⟨c, hc, hws⟩ := h
  have hd : trimL s.data = [] := congrArg String.data he
  rw [trimL_eq_nil_all_ws hd c hc] at hws
  exact absurd hws (by simp)

theorem text_ne_empty_of_exists_nonWs {s : String}
    (h : ∃ c ∈ s.data, jsWs c = false) : s ≠ "" := by
  intro he
  obtain ⟨c, hc, _⟩ := h
  rw [he] at hc
  exact absurd hc (by simp)

/-- A harmful or cooking-safety match forces a non-whitespace character in
the input (every chain's first literal starts with a letter). -/
theorem match_exists_nonWs {input : String}
    (h : matchesAnyPattern HARMFUL_PATTERNS input = true ∨
         matchesAnyPattern COOKING_SAFETY_PATTERNS input = true) :
    ∃ c ∈ input.data, jsWs c = false := by
  rcases h with h | h
  · exact anyPattern_exists_nonWs (by decide) h
  · exact anyPattern_exists_nonWs (by decide) h

/-! ## Supporting lemmas for the history map -/

theorem mmGet_mmSet_self (m : MemMap) (uid : String) (v : List MemoryEntry) :
    mmGet (mmSet m uid v) uid = v := by
  induction m with
  | nil => simp [mmSet, mmGet]
  | cons e rest ih =>
    obtain ⟨k, w⟩ := e
    by_cases h : k = uid
    · simp [mmSet, mmGet, h]
    · simp [mmSet, mmGet, h, ih]

theorem mmGet_mmSet_ne (m : MemMap) {uid uid' : String} (v : List MemoryEntry)
    (h : uid' ≠ uid) : mmGet (mmSet m uid v) uid' = mmGet m uid' := by
  have hne : ¬(uid = uid') := fun he => h he.symm
  induction m with
  | nil => simp [mmSet, mmGet, hne]
  | cons e rest ih =>
    obtain ⟨k, w⟩ := e
    by_cases hk : k = uid
    · subst hk
      simp [mmSet, mmGet, hne]
    · simp [mmSet, mmGet, hk, ih]

/-- After one `addToHistory`, the written user's in-process history never
exceeds 20 entries, whatever its previous length. -/
theorem addToHistory_len_le (env : Env) (m : MemMap) (uid u b : String) :
    (mmGet (addToHistory env m uid u b).1 uid).length ≤ 20 := by
  unfold addToHistory
  rw [mmGet_mmSet_self]
  split
  · rename_i h
    rw [List.length_drop]
    omega
  · rename_i h
    omega

theorem addToHistory_other (env : Env) (m : MemMap) {uid uid' : String} (u b : String)
    (h : uid' ≠ uid) :
    mmGet (addToHistory env m uid u b).1 uid' = mmGet m uid' := by
  unfold addToHistory
  exact mmGet_mmSet_ne _ _ h

/-- The per-user 20-entry bound is preserved by every turn of the history
writer. -/
theorem runHistory_len_le (env : Env) (turns : List (String × String × String))
    (uid : String) : (mmGet (runHistory env turns).1 uid).length ≤ 20 := by
  suffices h : ∀ (init : MemMap × List Call),
      (∀ u, (mmGet init.1 u).length ≤ 20) →
      ∀ u, (mmGet (turns.foldl
        (fun acc t =>
          let r := addToHistory env acc.1 t.1 t.2.1 t.2.2
          (r.1, acc.2 ++ r.2)) init).1 u).length ≤ 20 by
    exact h ([], []) (fun u => by simp [mmGet]) uid
  induction turns with
  | nil => intro init hinv u; exact hinv u
  | cons t ts ih =>
    intro init hinv u
    rw [List.foldl_cons]
    refine ih _ ?_ u
    intro w
    by_cases he : w = t.1
    · subst he
      exact addToHistory_len_le env init.1 t.1 t.2.1 t.2.2
    · rw [addToHistory_other env init.1 t.2.1 t.2.2 he]
      exact hinv w

/-! ## Characterization of the traces each helper can emit -/

theorem getUserPreferences_calls (env : Env) (uid : String) :
    (getUserPreferences env uid).2 = [] ∨
    (getUserPreferences env uid).2 = [Call.dbRead "user_preferences"] := by
  unfold getUserPreferences
  split
  · exact Or.inl rfl
  · split
    · exact Or.inl rfl
    · exact Or.inr rfl

theorem getUserMemory_calls (env : Env) (uid : String) :
    (getUserMemory env uid).2 = [] ∨
    (getUserMemory env uid).2 = [Call.dbRead "conversation_memory"] := by
  unfold getUserMemory
  split
  · exact Or.inl rfl
  · split
    · exact Or.inl rfl
    · exact Or.inr rfl

theorem getUserRecipes_calls (env : Env) (uid : String) :
    (getUserRecipes env uid).2 = [] ∨
    (getUserRecipes env uid).2 = [Call.dbRead "saved_recipes"] := by
  unfold getUserRecipes
  split
  · exact Or.inl rfl
  · split
    · exact Or.inl rfl
    · exact Or.inr rfl

theorem getConversationHistory_calls (env : Env) (mem : MemMap) (uid : String) :
    (getConversationHistory env mem uid).2 = [] ∨
    (getConversationHistory env mem uid).2 = [Call.dbRead "conversation_memory"] := by
  unfold getConversationHistory
  split
  · exact Or.inl rfl
  · split
    · exact Or.inl rfl
    · exact Or.inr rfl

theorem addToHistory_calls (env : Env) (mem : MemMap) (uid u b : String) :
    (addToHistory env mem uid u b).2 = [] ∨
    (addToHistory env mem uid u b).2 =
      [Call.dbWrite "conversation_memory" uid, Call.dbWrite "conversation_memory" uid] := by
  dsimp only [addToHistory]
  split
  · exact Or.inl rfl
  · split
    · exact Or.inl rfl
    · exact Or.inr rfl

theorem saveUserPreference_calls (env : Env) (uid t v : String) (c : Nat) :
    (saveUserPreference env uid t v c).2 = [] ∨
    (saveUserPreference env uid t v c).2 = [Call.dbWrite "user_preferences" uid] := by
  unfold saveUserPreference
  split
  · exact Or.inl rfl
  · exact Or.inr rfl

theorem addToShoppingList_calls (env : Env) (uid : String) (items : List ShoppingItem) :
    (addToShoppingList env uid items).2 = [] ∨
    (addToShoppingList env uid items).2 = [Call.dbWrite "shopping_lists" uid] := by
  unfold addToShoppingList
  split
  · exact Or.inl rfl
  · exact Or.inr rfl

theorem saveRecipe_calls (env : Env) (uid : String) (rd : FnArgs) :
    (saveRecipe env uid rd).2 = [] ∨
    (saveRecipe env uid rd).2 = [Call.dbWrite "saved_recipes" uid] := by
  unfold saveRecipe
  split
  · exact Or.inl rfl
  · exact Or.inr rfl

/-- The shopping-list executor's trace is that of the underlying write. -/
theorem executeAddToShoppingList_snd (env : Env) (uid : String) (items : List ShoppingItem) :
    (executeAddToShoppingList env uid items).2 = (addToShoppingList env uid items).2 := by
  dsimp only [executeAddToShoppingList]
  split <;> rfl

theorem executeSaveRecipe_snd (env : Env) (uid : String) (rd : FnArgs) :
    (executeSaveRecipe env uid rd).2 = (saveRecipe env uid rd).2 := by
  dsimp only [executeSaveRecipe]
  split <;> rfl

theorem executeUpdatePreferences_snd (env : Env) (uid : String) (pd : FnArgs) :
    (executeUpdatePreferences env uid pd).2 =
      (saveUserPreference env uid (optStr pd.preference_type)
        (optStr pd.preference_value) (jsConfidence pd.confidence)).2 := rfl

/-- Every trace an action executor can emit is empty or a single row write. -/
theorem executeFunctionCall_calls (env : Env) (uid : String) (fc : FunctionCall) :
    (executeFunctionCall env uid fc).2 = [] ∨
    ∃ t, (executeFunctionCall env uid fc).2 = [Call.dbWrite t uid] := by
  unfold executeFunctionCall
  split
  · rw [executeAddToShoppingList_snd]
    rcases addToShoppingList_calls env uid fc.args.items with h | h
    · exact Or.inl h
    · exact Or.inr ⟨"shopping_lists", h⟩
  · split
    · rw [executeSaveRecipe_snd]
      rcases saveRecipe_calls env uid fc.args with h | h
      · exact Or.inl h
      · exact Or.inr ⟨"saved_recipes", h⟩
    · split
      · rw [executeUpdatePreferences_snd]
        rcases saveUserPreference_calls env uid (optStr fc.args.preference_type)
            (optStr fc.args.preference_value) (jsConfidence fc.args.confidence) with h | h
        · exact Or.inl h
        · exact Or.inr ⟨"user_preferences", h⟩
      · split
        · exact Or.inl rfl
        · split
          · exact Or.inl rfl
          · split
            · exact Or.inl rfl
            · exact Or.inl rfl

/-! ## Call-counting lemmas -/

theorem countP_nutrition_exec (env : Env) (uid : String) (fc : FunctionCall) :
    ((executeFunctionCall env uid fc).2).countP isNutritionCall = 0 := by
  rcases executeFunctionCall_calls env uid fc with h | ⟨t, h⟩ <;> rw [h] <;> rfl

theorem countP_nutrition_execList (env : Env) (uid : String) :
    ∀ (fcs : List FunctionCall),
    (((fcs.map (executeFunctionCall env uid)).map Prod.snd).flatten).countP
      isNutritionCall = 0 := by
  intro fcs
  induction fcs with
  | nil => rfl
  | cons fc rest ih =>
    simp only [List.map_cons, List.flatten_cons, List.countP_append]
    rw [countP_nutrition_exec, ih]

theorem countP_nutrition_read₁ (env : Env) (uid : String) :
    ((getUserPreferences env uid).2).countP isNutritionCall = 0 := by
  rcases getUserPreferences_calls env uid with h | h <;> rw [h] <;> rfl

theorem countP_nutrition_read₂ (env : Env) (uid : String) :
    ((getUserMemory env uid).2).countP isNutritionCall = 0 := by
  rcases getUserMemory_calls env uid with h | h <;> rw [h] <;> rfl

theorem countP_nutrition_read₃ (env : Env) (uid : String) :
    ((getUserRecipes env uid).2).countP isNutritionCall = 0 := by
  rcases getUserRecipes_calls env uid with h | h <;> rw [h] <;> rfl

/-- A recently discussed recipe in the last four history entries makes the
classifier reject whatever the reply text is. -/
theorem isNewRecipeSuggestion_false_of_recent {hist : List MemoryEntry}
    (h : hasRecentRecipe hist = true) (text : String) :
    isNewRecipeSuggestion text hist = false := by
  unfold isNewRecipeSuggestion
  dsimp only
  by_cases ht : text = ""
  · rw [if_pos ht]
  · rw [if_neg ht]
    by_cases hq : (containsS (lowerS text) "?" || isPrefixS "what " (lowerS text) ||
        isPrefixS "how " (lowerS text)) = true
    · rw [if_pos hq]
    · rw [if_neg hq, if_pos h]

/-- The nutrition-call part of the agent trace: exactly one nutrition call
when the intent gate passes and the nutrition condition holds, none
otherwise. -/
theorem processWithAgent_nutrition_count (env : Env) (uid msg : String)
    (hist : List MemoryEntry) :
    ((processWithAgent env uid msg hist).2).countP isNutritionCall =
      (if checkCookingIntent msg &&
          (explicitNutritionAsk msg || isNewRecipeSuggestion env.modelOut.reply hist)
       then 1 else 0) := by
  unfold processWithAgent
  dsimp only
  by_cases h : checkCookingIntent msg = false
  · rw [if_pos (by rw [h]; rfl), h]
    rfl
  · rw [Bool.not_eq_false] at h
    rw [if_neg (by rw [h]; simp), h]
    simp only [List.countP_append, Bool.true_and]
    rw [countP_nutrition_read₁, countP_nutrition_read₂, countP_nutrition_read₃,
      countP_nutrition_execList]
    by_cases hn : (explicitNutritionAsk msg ||
        isNewRecipeSuggestion env.modelOut.reply hist) = true
    · rw [if_pos hn, hn]
      rfl
    · rw [if_neg hn, Bool.not_eq_true] at *
      rw [hn]
      rfl

/-! ## Fallback-query lemmas -/

theorem computeFallbackQuery_ne_empty (m : String) (mem : List MemoryEntry) :
    computeFallbackQuery m mem ≠ "" := by
  unfold computeFallbackQuery
  dsimp only
  by_cases h1 : trimS (stripDoesLook (trimS (stripHowLooks (stripPhrases m)))) = ""
  · rw [if_pos h1]
    by_cases h2 : trimS (firstSegment
        ((Option.map MemoryEntry.memory_content mem.getLast?).getD "")) = ""
    · rw [if_pos h2]
      decide
    · rw [if_neg h2]
      exact h2
  · rw [if_neg h1]
    exact h1

/-! ## Context-containment lemmas -/

theorem ingLines_contains (ing : Ingredient) :
    ∀ (l : List Ingredient) (i : Nat), ing ∈ l →
    containsS (ingLines i l) (ing.amount ++ " " ++ ing.name) = true := by
  intro l
  induction l with
  | nil => intro i h; cases h
  | cons a rest ih =>
    intro i h
    rcases List.mem_cons.mp h with rfl | h2
    · rw [ingLines]
      apply containsS_append_left
      rw [ingLine]
      apply containsS_append_left
      exact containsS_append_right _ (containsS_self _)
    · rw [ingLines]
      exact containsS_append_right _ (ih (i + 1) h2)

theorem stepLines_contains (st : RecipeStep) :
    ∀ (l : List RecipeStep), st ∈ l →
    containsS (stepLines l) (toString st.step ++ ". " ++ st.instruction) = true := by
  intro l
  induction l with
  | nil => intro h; cases h
  | cons a rest ih =>
    intro h
    rcases List.mem_cons.mp h with rfl | h2
    · rw [stepLines]
      apply containsS_append_left
      rw [stepLine]
      exact containsS_append_right _ (containsS_self _)
    · rw [stepLines]
      exact containsS_append_right _ (ih h2)

/-- Anything contained in the guidance block is contained in the full
assembled prompt. -/
theorem buildContextPrompt_contains_guidance {recipes : List SavedRecipe} {now : Nat}
    {x : String} (prefs : List Pref) (memory hist : List MemoryEntry) (msg : String)
    (h : containsS (recipeGuidanceContext recipes now) x = true) :
    containsS (buildContextPrompt prefs memory hist recipes now msg) x = true := by
  unfold buildContextPrompt
  apply containsS_append_left
  apply containsS_append_left
  apply containsS_append_left
  exact containsS_append_right _ h

/-- Anything contained in the detail block is contained in the guidance
block, when the most recent recipe is inside the recency window and has a
stored payload. -/
theorem recipeGuidanceContext_contains_details {r : SavedRecipe} {rest : List SavedRecipe}
    {now : Nat} {rd : RecipeData} {x : String}
    (hrd : r.recipe_data = some rd)
    (hage : (now : Int) - (r.created_at : Int) < (recencyWindowMs : Int))
    (h : containsS (recipeDetails rd) x = true) :
    containsS (recipeGuidanceContext (r :: rest) now) x = true := by
  rw [recipeGuidanceContext]
  rw [if_pos hage, hrd]
  exact containsS_append_right _ h

/-! ## Concrete environments used by witnesses and counterexamples -/

/-- A baseline environment: both services configured, wall clock zero, a
model reply with no tool calls. -/
def envBase : Env :=
  { supabaseConfigured := true, geminiKey := true, now := 0, dbOk := true,
    modelOut := { reply := "ok", functionCalls := [] },
    dbPreferences := [], dbMemory := [], dbRecipes := [], dbHistory := [] }

/-! ## Claim theorems -/

/-- C2 theorem: for every request whose text matches a harmful-content
pattern or a cooking-safety pattern, the handler answers 400 carrying the
validation reason, the gate marks the input unsafe, and the turn's trace
holds only the validation event — no model call, no datastore call, and
the in-process history map is untouched, so `processWithAgent` is never
reached. -/
theorem c2_gate_rejects_before_model (env : Env) (mem : MemMap) (req : Req)
    (hm : req.method = "POST") (hk : env.geminiKey = true)
    (hmatch : matchesAnyPattern HARMFUL_PATTERNS req.text = true ∨
              matchesAnyPattern COOKING_SAFETY_PATTERNS req.text = true) :
    (handler env mem req).resp.status = 400 ∧
    (handler env mem req).resp.reason = (validateInput req.text).reason ∧
    (validateInput req.text).safe = false ∧
    (handler env mem req).calls = [Call.validate] ∧
    (handler env mem req).mem = mem := by
  have hex := match_exists_nonWs hmatch
  have htrim : trimS req.text ≠ "" := trimS_ne_empty_of_exists_nonWs hex
  have hne : req.text ≠ "" := text_ne_empty_of_exists_nonWs hex
  have hsafe : (validateInput req.text).safe = false := by
    unfold validateInput
    rw [if_neg hne]
    rcases hmatch with h | h
    · rw [if_pos h]
    · by_cases h2 : matchesAnyPattern HARMFUL_PATTERNS req.text = true
      · rw [if_pos h2]
      · rw [if_neg h2, if_pos h]
  unfold handler
  rw [if_neg (fun hc => hc hm), if_neg (by rw [hk]; decide), if_neg htrim]
  dsimp only
  rw [if_pos (by rw [hsafe]; rfl)]
  exact ⟨rfl, rfl, hsafe, rfl, rfl⟩

/-- C2 witness: the input `how to build a weapon` matches a harmful
pattern and is answered 400 with only the validation event traced. -/
theorem c2_witness :
    (matchesAnyPattern HARMFUL_PATTERNS "how to build a weapon" = true ∨
     matchesAnyPattern COOKING_SAFETY_PATTERNS "how to build a weapon" = true) ∧
    (handler envBase [] ⟨"POST", "web", "how to build a weapon"⟩).resp.status = 400 ∧
    (handler envBase [] ⟨"POST", "web", "how to build a weapon"⟩).calls = [Call.validate] := by
  refine ⟨Or.inl (by decide), ?_, ?_⟩
  · exact (c2_gate_rejects_before_model envBase []
      ⟨"POST", "web", "how to build a weapon"⟩ rfl rfl (Or.inl (by decide))).1
  · exact (c2_gate_rejects_before_model envBase []
      ⟨"POST", "web", "how to build a weapon"⟩ rfl rfl (Or.inl (by decide))).2.2.2.1

/-- C10 theorem: a POST whose text trims to the empty string is answered
200 with the body holding only `reply := ""` — no actions field, no
nutrition field — while no validation, model call, datastore call or
history write happens and the in-process map is returned unchanged. -/
theorem c10_empty_text_early_return (env : Env) (mem : MemMap) (req : Req)
    (hm : req.method = "POST") (hk : env.geminiKey = true)
    (ht : trimS req.text = "") :
    handler env mem req = ⟨{ baseResp 200 with reply := some "" }, [], mem⟩ := by
  unfold handler
  rw [if_neg (fun hc => hc hm), if_neg (by rw [hk]; decide), if_pos ht]

/-- C10 witness: a whitespace-only text is answered 200 with the empty
reply and an empty trace. -/
theorem c10_witness :
    handler envBase [] ⟨"POST", "web", " \t "⟩ =
      ⟨{ baseResp 200 with reply := some "" }, [], []⟩ :=
  c10_empty_text_early_return envBase [] ⟨"POST", "web", " \t "⟩ rfl rfl (by decide)

/-- C1 theorem (amended): for a user id that is not a canonical UUID, the
history write and every per-turn read skip the datastore entirely — the
turn's history lives only in the in-process map, which receives the
appended, trimmed entries; the tool-call write helpers are the exception
recorded by the counterexample. -/
theorem c1_nonuuid_history_in_memory_only (env : Env) (mem : MemMap)
    (uid umsg bmsg : String) (h : isValidUUID uid = false) :
    (addToHistory env mem uid umsg bmsg).2 = [] ∧
    (getConversationHistory env mem uid).1 = mmGet mem uid ∧
    (getConversationHistory env mem uid).2 = [] ∧
    (getUserPreferences env uid).2 = [] ∧
    (getUserMemory env uid).2 = [] ∧
    (getUserRecipes env uid).2 = [] ∧
    mmGet (addToHistory env mem uid umsg bmsg).1 uid =
      (let appended := mmGet mem uid ++
        [⟨"user_message", umsg, env.now⟩, ⟨"assistant_response", bmsg, env.now⟩]
       if appended.length > 20 then appended.drop (appended.length - 20) else appended) := by
  refine ⟨?_, ?_, ?_, ?_, ?_, ?_, ?_⟩ <;>
    simp [addToHistory, getConversationHistory, getUserPreferences, getUserMemory,
      getUserRecipes, h, mmGet_mmSet_self]

/-- C1 witness: the non-UUID id `demo-user` makes the history write skip
the datastore. -/
theorem c1_witness :
    isValidUUID "demo-user" = false ∧
    (addToHistory envBase [] "demo-user" "hi" "ok").2 = [] :=
  ⟨by decide,
   (c1_nonuuid_history_in_memory_only envBase [] "demo-user" "hi" "ok" (by decide)).1⟩

def prefArgsC1 : FnArgs :=
  { emptyArgs with preference_type := some "diet", preference_value := some "vegan" }

def modelOutC1 : ModelOut :=
  { reply := "ok", functionCalls := [⟨"update_preferences", prefArgsC1⟩] }

def envC1 : Env := { envBase with modelOut := modelOutC1 }

/-- C1 counterexample: a turn for the non-UUID id `demo-user` whose model
response carries an `update_preferences` tool call does issue a datastore
write (`saveUserPreference` has no UUID check), refuting the claim that no
persistence operation reaches the datastore for such ids. -/
theorem c1_counterexample :
    isValidUUID "demo-user" = false ∧
    Call.dbWrite "user_preferences" "demo-user" ∈
      (handler envC1 [] ⟨"POST", "demo-user", "hi"⟩).calls := by
  constructor
  · decide
  · decide

/-- C3 theorem (amended): the in-process history of every user stays at or
below 20 entries after any number of turns of the history writer, and a
history read returns either at most 20 stored rows (the query's limit) or
exactly the in-process list. -/
theorem c3_history_bounds (env : Env) (turns : List (String × String × String))
    (mem : MemMap) (uid : String) :
    (mmGet (runHistory env turns).1 uid).length ≤ 20 ∧
    ((getConversationHistory env mem uid).1.length ≤ 20 ∨
     (getConversationHistory env mem uid).1 = mmGet mem uid) := by
  refine ⟨runHistory_len_le env turns uid, ?_⟩
  unfold getConversationHistory
  split
  · exact Or.inr rfl
  · split
    · exact Or.inr rfl
    · exact Or.inl (by simp [List.length_take_le])

def uuidC3 : String := "123e4567-e89b-12d3-a456-426614174000"

/-- C3 counterexample: after 11 turns for a canonical UUID, the persistent
store holds 22 history rows — `addToHistory` inserts two rows per turn and
never deletes, so storage exceeds the claimed 20-entry bound. -/
theorem c3_counterexample :
    isValidUUID uuidC3 = true ∧
    20 < ((runHistory envBase (List.replicate 11 (uuidC3, "u", "b"))).2.countP
      (fun c => c = Call.dbWrite "conversation_memory" uuidC3)) := by
  constructor
  · decide
  · decide

/-- C4 theorem: when the intent gate passes, the model produced zero tool
calls and the lowercased message contains a trigger phrase, the turn's
action list is exactly one synthesized `reference_images` action whose
query — obtained by the stripping heuristic with fallback to the most
recent memory fact — is never empty. -/
theorem c4_fallback_single_action (env : Env) (uid msg : String)
    (hist : List MemoryEntry)
    (hIntent : checkCookingIntent msg = true)
    (hZero : env.modelOut.functionCalls = [])
    (hSee : seePhrases.any (fun p => containsS (lowerS msg) p) = true) :
    (processWithAgent env uid msg hist).1.actions =
      [refImagesFallbackAction
        (computeFallbackQuery (lowerS msg) (getUserMemory env uid).1)] ∧
    computeFallbackQuery (lowerS msg) (getUserMemory env uid).1 ≠ "" := by
  refine ⟨?_, computeFallbackQuery_ne_empty _ _⟩
  unfold processWithAgent
  rw [if_neg (by rw [hIntent]; decide)]
  dsimp only
  rw [hZero]
  dsimp only [List.map_nil, List.flatten_nil]
  unfold applyFallback
  rw [if_pos (show ([] : List ActionEntry).length = 0 from rfl)]
  dsimp only
  rw [if_pos hSee]
  rfl

def envC4 : Env := envBase

/-- C4 witness: with no tool calls and the message `show me fried rice`,
exactly one reference-image action with the non-empty query `fried rice`
is synthesized. -/
theorem c4_witness :
    checkCookingIntent "show me fried rice" = true ∧
    envC4.modelOut.functionCalls = [] ∧
    seePhrases.any (fun p => containsS (lowerS "show me fried rice") p) = true ∧
    (processWithAgent envC4 "web" "show me fried rice" []).1.actions =
      [refImagesFallbackAction
        (computeFallbackQuery (lowerS "show me fried rice")
          (getUserMemory envC4 "web").1)] :=
  ⟨by decide, rfl, by decide,
   (c4_fallback_single_action envC4 "web" "show me fried rice" []
     (by decide) rfl (by decide)).1⟩

/-- C5 theorem (amended): every turn issues the nutrition analysis call at
most once, and whenever the user's message does not explicitly ask for
nutrition, a recently discussed recipe in the last four history entries
suppresses the call entirely; an explicit ask overrides the suppression,
as the counterexample records. -/
theorem c5_nutrition_once_and_suppressed (env : Env) (uid msg : String)
    (hist : List MemoryEntry) :
    ((processWithAgent env uid msg hist).2).countP isNutritionCall ≤ 1 ∧
    (explicitNutritionAsk msg = false → hasRecentRecipe hist = true →
      ((processWithAgent env uid msg hist).2).countP isNutritionCall = 0) := by
  constructor
  · rw [processWithAgent_nutrition_count]
    split
    · exact le_refl 1
    · exact Nat.zero_le 1
  · intro hexp hrec
    rw [processWithAgent_nutrition_count, hexp,
      isNewRecipeSuggestion_false_of_recent hrec]
    simp

def histC5 : List MemoryEntry := [⟨"user_message", "we made fried rice", 0⟩]

/-- C5 witness: a neutral message with a recently-discussed-recipe history
issues no nutrition call. -/
theorem c5_witness :
    explicitNutritionAsk "hello there" = false ∧
    hasRecentRecipe histC5 = true ∧
    ((processWithAgent envBase "web" "hello there" histC5).2).countP
      isNutritionCall = 0 :=
  ⟨by decide, by decide,
   (c5_nutrition_once_and_suppressed envBase "web" "hello there" histC5).2
     (by decide) (by decide)⟩

/-- C5 counterexample: the claim that nutrition analysis is never invoked
on a continuation is false as stated — an explicit nutrition request fires
the call although a same-dish keyword sits in the last four history
entries. -/
theorem c5_counterexample :
    hasRecentRecipe histC5 = true ∧
    ((processWithAgent envBase "web" "nutrition please" histC5).2).countP
      isNutritionCall = 1 := by
  constructor
  · decide
  · decide

/-- C6 theorem: the new-recipe-suggestion classifier equals the claimed
decomposition — it rejects question replies (a `?` anywhere, or a reply
starting with the interrogative words `what `/`how `), rejects replies
with a recently-discussed-recipe keyword in the last four history entries,
and otherwise accepts exactly the replies with a cooking-action keyword
and more than 100 characters, or with a known dish name. -/
theorem c6_classifier_characterization (text : String) (hist : List MemoryEntry) :
    isNewRecipeSuggestion text hist =
      (!(containsS (lowerS text) "?" || isPrefixS "what " (lowerS text) ||
         isPrefixS "how " (lowerS text)) &&
       !hasRecentRecipe hist &&
       ((cookingKeywords.any (fun w => containsS (lowerS text) w) &&
         decide (text.data.length > 100)) ||
        recipeNames.any (fun r => containsS (lowerS text) r))) := by
  by_cases ht : text = ""
  · subst ht
    have h1 : (containsS (lowerS "") "?" || isPrefixS "what " (lowerS "") ||
        isPrefixS "how " (lowerS "")) = false := by decide
    have h2 : (cookingKeywords.any (fun w => containsS (lowerS "") w)) = false := by decide
    have h3 : (recipeNames.any (fun r => containsS (lowerS "") r)) = false := by decide
    rw [isNewRecipeSuggestion, if_pos rfl, h1, h2, h3]
    simp
  · rw [isNewRecipeSuggestion, if_neg ht]
    dsimp only
    by_cases hq : (containsS (lowerS text) "?" || isPrefixS "what " (lowerS text) ||
        isPrefixS "how " (lowerS text)) = true
    · rw [if_pos hq, hq]
      simp
    · rw [if_neg hq]
      rw [Bool.not_eq_true] at hq
      rw [hq]
      by_cases hr : hasRecentRecipe hist = true
      · rw [if_pos hr, hr]
        simp
      · rw [Bool.not_eq_true] at hr
        rw [if_neg (by rw [hr]; decide), hr]
        simp

/-- C7 theorem (amended): when the most recently saved recipe carries a
stored payload and its age is inside the five-minute window, the assembled
prompt contains every ingredient among the first ten (as `amount name`)
and every step among the first five (as `number. instruction`); the
truncation to 10 ingredients and 5 steps is the corrected part, recorded
by the counterexample. -/
theorem c7_recent_recipe_in_context (prefs : List Pref)
    (memory hist : List MemoryEntry) (r : SavedRecipe) (rest : List SavedRecipe)
    (now : Nat) (msg : String) (rd : RecipeData)
    (hrd : r.recipe_data = some rd)
    (hage : (now : Int) - (r.created_at : Int) < (recencyWindowMs : Int)) :
    (∀ ing ∈ rd.ingredients.take 10,
      containsS (buildContextPrompt prefs memory hist (r :: rest) now msg)
        (ing.amount ++ " " ++ ing.name) = true) ∧
    (∀ st ∈ rd.steps.take 5,
      containsS (buildContextPrompt prefs memory hist (r :: rest) now msg)
        (toString st.step ++ ". " ++ st.instruction) = true) := by
  constructor
  · intro ing hing
    apply buildContextPrompt_contains_guidance
    apply recipeGuidanceContext_contains_details hrd hage
    unfold recipeDetails
    apply containsS_append_left
    apply containsS_append_left
    apply containsS_append_right
    unfold ingredientsBlock
    rw [if_pos (List.length_pos.mpr
      (List.ne_nil_of_mem (List.mem_of_mem_take hing)))]
    apply containsS_append_right
    exact ingLines_contains ing _ 0 hing
  · intro st hst
    apply buildContextPrompt_contains_guidance
    apply recipeGuidanceContext_contains_details hrd hage
    unfold recipeDetails
    apply containsS_append_left
    apply containsS_append_right
    unfold stepsBlock
    rw [if_pos (List.length_pos.mpr
      (List.ne_nil_of_mem (List.mem_of_mem_take hst)))]
    apply containsS_append_left
    apply containsS_append_right
    exact stepLines_contains st _ hst

def rdC7 : RecipeData :=
  { description := some "test dish", servings := some 2, difficulty := some "easy",
    ingredients := [⟨"1 cup", "rice", none⟩],
    steps := [⟨1, "wash"⟩, ⟨2, "boil"⟩, ⟨3, "fry"⟩, ⟨4, "season"⟩, ⟨5, "plate"⟩,
              ⟨6, "qqzzqq garnish"⟩] }

def recC7 : SavedRecipe :=
  { title := "Test Dish", difficulty := "easy", prep_time := some 5,
    cook_time := some 10, created_at := 0, recipe_data := some rdC7 }

/-- C7 witness: a recipe saved at time 0 and read at time 0 (inside the
window) surfaces its first ingredient in the assembled prompt. -/
theorem c7_witness :
    containsS (buildContextPrompt [] [] [] [recC7] 0 "guide me")
      ((⟨"1 cup", "rice", none⟩ : Ingredient).amount ++ " " ++
       (⟨"1 cup", "rice", none⟩ : Ingredient).name) = true :=
  (c7_recent_recipe_in_context [] [] [] recC7 [] 0 "guide me" rdC7 rfl
    (by decide)).1 ⟨"1 cup", "rice", none⟩ (by decide)

/-- C7 counterexample: the claim promises the saved recipe's steps in the
assembled context, but the builder slices to the first five — the sixth
step of a six-step recipe saved inside the window is absent from the
prompt. -/
theorem c7_counterexample :
    ((0 : Nat) : Int) - ((recC7.created_at : Nat) : Int) < (recencyWindowMs : Int) ∧
    (⟨6, "qqzzqq garnish"⟩ : RecipeStep) ∈ rdC7.steps ∧
    containsS (buildContextPrompt [] [] [] [recC7] 0 "guide me") "qqzzqq" = false := by
  refine ⟨by decide, by decide, ?_⟩
  decide

/-- C8 theorem: on a datastore write failure, the preference path still
reports `preference_updated` with no error field although the underlying
write returned failure, while the recipe-save and shopping-list paths
report an error entry instead. -/
theorem c8_write_failure_reporting (env : Env) (uid : String) (args : FnArgs)
    (hs : env.supabaseConfigured = true) (hf : env.dbOk = false) :
    (saveUserPreference env uid (optStr args.preference_type)
        (optStr args.preference_value) (jsConfidence args.confidence)).1 = false ∧
    (executeFunctionCall env uid ⟨"update_preferences", args⟩).1.action =
      some "preference_updated" ∧
    (executeFunctionCall env uid ⟨"update_preferences", args⟩).1.error = none ∧
    (executeFunctionCall env uid ⟨"save_recipe", args⟩).1.action = none ∧
    (executeFunctionCall env uid ⟨"save_recipe", args⟩).1.error =
      some "Failed to save recipe" ∧
    (executeFunctionCall env uid ⟨"add_to_shopping_list", args⟩).1.error =
      some "Failed to add to shopping list" := by
  have hpref : (saveUserPreference env uid (optStr args.preference_type)
      (optStr args.preference_value) (jsConfidence args.confidence)).1 = false := by
    unfold saveUserPreference
    rw [if_neg (by rw [hs]; decide)]
    exact hf
  have hrec : (saveRecipe env uid args).1 = false := by
    unfold saveRecipe
    rw [if_neg (by rw [hs]; decide)]
    exact hf
  have hshop : (addToShoppingList env uid args.items).1 = false := by
    unfold addToShoppingList
    rw [if_neg (by rw [hs]; decide)]
    exact hf
  refine ⟨hpref, rfl, rfl, ?_, ?_, ?_⟩
  · show (executeSaveRecipe env uid args).1.action = none
    dsimp only [executeSaveRecipe]
    rw [hrec]
    rfl
  · show (executeSaveRecipe env uid args).1.error = some "Failed to save recipe"
    dsimp only [executeSaveRecipe]
    rw [hrec]
    rfl
  · show (executeAddToShoppingList env uid args.items).1.error =
      some "Failed to add to shopping list"
    dsimp only [executeAddToShoppingList]
    rw [hshop]
    rfl

def envC8 : Env := { envBase with dbOk := false }

/-- C8 witness: with the datastore failing writes, the preference entry
still reports success while the recipe-save entry is an error. -/
theorem c8_witness :
    envC8.supabaseConfigured = true ∧ envC8.dbOk = false ∧
    (executeFunctionCall envC8 "web" ⟨"update_preferences", prefArgsC1⟩).1.action =
      some "preference_updated" ∧
    (executeFunctionCall envC8 "web" ⟨"save_recipe", prefArgsC1⟩).1.error =
      some "Failed to save recipe" :=
  ⟨rfl, rfl,
   (c8_write_failure_reporting envC8 "web" prefArgsC1 rfl rfl).2.1,
   (c8_write_failure_reporting envC8 "web" prefArgsC1 rfl rfl).2.2.2.2.1⟩

/-- C9 theorem: a normalized tool call whose name is none of the six
declared tools yields the explicit `Unknown function` error entry, and a
turn whose single tool call is unknown surfaces exactly that entry in the
actions list instead of dropping the call. -/
theorem c9_unknown_tool_error_entry (env : Env) (uid msg : String)
    (hist : List MemoryEntry) (name : String) (args : FnArgs)
    (hIntent : checkCookingIntent msg = true)
    (hcalls : env.modelOut.functionCalls = [⟨name, args⟩])
    (hunk : name ∉ toolNames) :
    executeFunctionCall env uid ⟨name, args⟩ = (unknownFunctionEntry, []) ∧
    (processWithAgent env uid msg hist).1.actions = [unknownFunctionEntry] := by
  simp only [toolNames, List.mem_cons, List.not_mem_nil, or_false, not_or] at hunk
  obtain ⟨h1, h2, h3, h4, h5, h6⟩ := hunk
  have hexec : executeFunctionCall env uid ⟨name, args⟩ = (unknownFunctionEntry, []) := by
    unfold executeFunctionCall
    rw [if_neg h1, if_neg h2, if_neg h3, if_neg h4, if_neg h5, if_neg h6]
  refine ⟨hexec, ?_⟩
  unfold processWithAgent
  rw [if_neg (by rw [hIntent]; decide)]
  dsimp only
  rw [hcalls]
  dsimp only [List.map_cons, List.map_nil]
  rw [hexec]
  unfold applyFallback
  rw [if_neg (by decide)]

def fooCall : FunctionCall := ⟨"fooFunction", emptyArgs⟩

def modelOutC9 : ModelOut := { reply := "ok", functionCalls := [fooCall] }

def envC9 : Env := { envBase with modelOut := modelOutC9 }

/-- C9 witness: the unknown tool name `fooFunction` produces the explicit
error entry in the turn's actions list. -/
theorem c9_witness :
    ("fooFunction" : String) ∉ toolNames ∧
    (processWithAgent envC9 "web" "hi" []).1.actions = [unknownFunctionEntry] :=
  ⟨by decide,
   (c9_unknown_tool_error_entry envC9 "web" "hi" [] "fooFunction" emptyArgs
     (by decide) rfl (by decide)).2⟩

end ChefCompadre
